import Mathlib

/-!
Verification of the obs-assistant backend core: the voice-activity-detection
state machine and capture/worker pipeline of src/backend/voice.py, and the
wake-word gate, retry policy and session message loop of src/backend/main.py.

Modelling conventions. Audio samples and energy levels are embedded as exact
rationals; the float comparisons of the source (level > SILENCE_THRESHOLD,
duration >= MIN_SPEECH_DURATION) are nowhere near the rounding error of
float64 on the relevant boundaries, so the rational model agrees with the
float code at every threshold test. The RMS comparison is embedded by
comparing the mean square against the squared threshold, which is proved
equivalent to comparing the real square root against the threshold
(isSpeechBlock_iff_sqrt). Strings are Lean strings over the same characters;
character classes of the wake regex are the ASCII parts of the Python
classes, which cover every character the spec and claims mention.
-/

namespace ObsAssistant

/-! ## Constants of src/backend/voice.py (lines 8-13) -/

/-- SAMPLE_RATE = 16000 (voice.py line 8). -/
def SAMPLE_RATE : ℕ := 16000

/-- BLOCK_DURATION = 0.5 seconds per audio block (voice.py line 10). -/
def BLOCK_DURATION : ℚ := 1 / 2

/-- SILENCE_THRESHOLD = 0.01, RMS below this is silence (voice.py line 11). -/
def SILENCE_THRESHOLD : ℚ := 1 / 100

/-- SILENCE_TIMEOUT = 1.5 seconds of silence before transcribing (voice.py line 12). -/
def SILENCE_TIMEOUT : ℚ := 3 / 2

/-- MIN_SPEECH_DURATION = 0.5, ignore very short bursts (voice.py line 13). -/
def MIN_SPEECH_DURATION : ℚ := 1 / 2

/-- block_size = int(SAMPLE_RATE * BLOCK_DURATION) (voice.py line 63). -/
def blockSize : ℕ := (⌊(SAMPLE_RATE : ℚ) * BLOCK_DURATION⌋).toNat

/-- silence_blocks = int(SILENCE_TIMEOUT / BLOCK_DURATION) (voice.py line 64). -/
def silenceBlocks : ℕ := (⌊SILENCE_TIMEOUT / BLOCK_DURATION⌋).toNat

/-! ## The VAD classifier (voice.py lines 20-21 and 66-93) -/

/-- The square of the RMS energy of a block: mean of the squared samples.
The source computes rms(audio) = sqrt(mean(audio ** 2)) (voice.py lines
20-21) and only ever compares it against SILENCE_THRESHOLD; we embed the
squared comparison, which is exact over the rationals, and prove it
equivalent to the square-root form below. An empty block gives 0 (division
by zero is 0 in Lean; numpy gives nan, which also fails the > test). -/
def rmsSq (b : List ℚ) : ℚ :=
  (b.map (fun x => x * x)).sum / (b.length : ℚ)

/-- A block is speech when its RMS strictly exceeds SILENCE_THRESHOLD,
i.e. when its mean square strictly exceeds the squared threshold
(voice.py line 75: level > SILENCE_THRESHOLD). -/
def isSpeechBlock (b : List ℚ) : Bool :=
  decide (SILENCE_THRESHOLD * SILENCE_THRESHOLD < rmsSq b)

/-- The per-pipeline VAD state of VoiceListener: _is_speaking, _silent_count
and _audio_buffer (voice.py lines 35-38); the buffer is the list of appended
chunks. -/
structure VadState where
  isSpeaking : Bool
  silentCount : ℕ
  buffer : List (List ℚ)
deriving DecidableEq

/-- The state of a freshly constructed VoiceListener (voice.py lines 36-38). -/
def VadState.init : VadState := ⟨false, 0, []⟩

/-- One invocation of audio_cb on a chunk (voice.py lines 66-93), returning
the updated state together with the utterance pushed to the queue at the
silence-timeout commit point, if any.
If level > SILENCE_THRESHOLD: become speaking, append the chunk, zero the
silent counter. Else, if speaking: append the chunk and bump the counter;
once it reaches silence_blocks, concatenate the buffer, reset the state,
and enqueue the audio iff its duration is at least MIN_SPEECH_DURATION.
Else (silent while idle): do nothing. -/
def audioCb (st : VadState) (chunk : List ℚ) : VadState × Option (List ℚ) :=
  if isSpeechBlock chunk then
    (⟨true, 0, st.buffer ++ [chunk]⟩, none)
  else if st.isSpeaking then
    let buf := st.buffer ++ [chunk]
    let sc := st.silentCount + 1
    if silenceBlocks ≤ sc then
      let fullAudio := buf.flatten
      let duration : ℚ := (fullAudio.length : ℚ) / (SAMPLE_RATE : ℚ)
      (⟨false, 0, []⟩, if MIN_SPEECH_DURATION ≤ duration then some fullAudio else none)
    else
      (⟨st.isSpeaking, sc, buf⟩, none)
  else
    (st, none)

/-- Feeding a whole block stream through audio_cb: final state and the
utterances handed to the queue, in order. -/
def runVad : VadState → List (List ℚ) → VadState × List (List ℚ)
  | st, [] => (st, [])
  | st, b :: bs =>
    let r := audioCb st b
    let rest := runVad r.1 bs
    (rest.1, r.2.toList ++ rest.2)

/-- The trace of (state before the block, block) pairs produced while
feeding a block stream through audio_cb. -/
def vadSteps : VadState → List (List ℚ) → List (VadState × List ℚ)
  | _, [] => []
  | st, b :: bs => (st, b) :: vadSteps (audioCb st b).1 bs

/-! ## Listener lifecycle and the utterance channel (voice.py lines 30-56, 110-122)

The queue is a FIFO list of items; an item is some utterance (an audio
array put by audio_cb) or the stop sentinel None (put by stop). -/

/-- The lifecycle-relevant state of a VoiceListener: the _running flag and
the contents of its _queue, oldest item first. -/
structure ListenerSt where
  running : Bool
  queue : List (Option (List ℚ))
deriving DecidableEq

/-- The state of a freshly constructed VoiceListener (voice.py lines 33-41). -/
def ListenerSt.init : ListenerSt := ⟨false, []⟩

namespace VoiceListener

/-- VoiceListener.start (voice.py lines 43-50): a no-op when already
running, otherwise sets _running and launches the two threads. -/
def start (s : ListenerSt) : ListenerSt :=
  if s.running then s else { s with running := true }

/-- VoiceListener.stop (voice.py lines 53-56): clears _running, then puts
the None sentinel to unblock the worker. -/
def stop (s : ListenerSt) : ListenerSt :=
  { running := false, queue := s.queue ++ [none] }

end VoiceListener

/-- The worker loop _transcribe_loop (voice.py lines 110-122) resumed at
its while-condition check, with the _running flag holding the fixed value
`running` for the remainder of the run (no further stop or start occurs).
Each iteration first tests the flag, then blocks on the queue: the None
sentinel breaks the loop, any other item is transcribed and handed to the
callback. The result lists the utterances the loop processes before it
exits; an empty queue means the receive blocks with nothing further to
process. -/
def transcribeFrom (running : Bool) : List (Option (List ℚ)) → List (List ℚ)
  | [] => []
  | none :: _ => []
  | some a :: rest => if running then a :: transcribeFrom running rest else []

/-- The worker loop resumed when it is already blocked inside the
queue-receive of the current iteration (the while-condition of this
iteration was passed before the flag changed): the head item is received
and handled, and only then is the flag tested again. -/
def transcribeFromGet (running : Bool) : List (Option (List ℚ)) → List (List ℚ)
  | [] => []
  | none :: _ => []
  | some a :: rest => a :: transcribeFrom running rest

/-- The utterances sitting in a queue, in FIFO order, ignoring sentinels. -/
def queuedUtterances (q : List (Option (List ℚ))) : List (List ℚ) :=
  q.filterMap id

/-! ## Python string stripping -/

/-- The ASCII whitespace class of Python (str.strip and regex backslash-s). -/
def isPySpace (c : Char) : Bool :=
  c = ' ' || c = '\t' || c = '\n' || c = '\r' || c = '\x0b' || c = '\x0c'

/-- Python str.strip(): drop leading and trailing whitespace. -/
def pyStrip (l : List Char) : List Char :=
  ((l.dropWhile isPySpace).reverse.dropWhile isPySpace).reverse

/-! ## Outbound protocol messages (main.py, ws.send_text calls) -/

/-- The outbound session messages, one constructor per "type" value the
backend ever sends on the websocket. -/
inductive Msg
  | obsStatus (connected : Bool) (message : String)
  | streamStart
  | streamDelta (content : String)
  | streamEnd
  | error (content : String)
  | transcription (content : String)
  | voiceStatus (listening : Bool)
deriving DecidableEq

/-! ## The command-dispatch retry policy, _run_agent_non_stream (main.py lines 462-482) -/

/-- One attempt of the executor: agent.run either raises (an exception whose
description is the string) or returns a result whose output is None or a
string. A whole executor behaviour maps the 0-based attempt index to its
outcome. -/
abbrev ExecAttempt := Except String (Option String)

/-- Whether the first character list is an initial segment of the second. -/
def startsWithList : List Char → List Char → Bool
  | [], _ => true
  | _ :: _, [] => false
  | c :: cs, d :: ds => c = d && startsWithList cs ds

/-- Whether the first character list occurs contiguously anywhere in the
second; this is the semantics of the Python substring test `a in b`. -/
def containsList (needle : List Char) : List Char → Bool
  | [] => startsWithList needle []
  | c :: rest => startsWithList needle (c :: rest) || containsList needle rest

/-- The transient-provider marker test of main.py line 477:
"invalid_request_error" in err_str or "nil" in err_str. -/
def isTransientErr (e : String) : Bool :=
  containsList "invalid_request_error".toList e.toList || containsList "nil".toList e.toList

/-- max_attempts = 3 (main.py line 464). -/
def maxAttempts : ℕ := 3

/-- The fixed apology returned when the final attempt produces an
empty/blank result (main.py line 472). -/
def apologyEmpty : String := "Sorry, I couldn\x27t generate a response. Please try again."

/-- The apology after the for-loop (main.py line 482); reachable only if
every iteration ends in continue. -/
def apologyExhausted : String := "Sorry, I couldn\x27t generate a response after multiple attempts."

/-- The outcome of _run_agent_non_stream: a returned string, or a raised
exception with the given description. -/
inductive RunOutcome
  | reply (s : String)
  | raised (e : String)
deriving DecidableEq

/-- The empty-result test of main.py line 468:
result.output is None or result.output.strip() == "". -/
def isBlankOut : Option String → Bool
  | none => true
  | some s => pyStrip s.toList = []

/-- The body of _run_agent_non_stream from loop index `attempt` with `fuel`
loop iterations left (main.py lines 464-482), also counting the executor
calls made. An empty/blank output (None or whitespace-only) retries while
attempt < max_attempts - 1 and otherwise returns the fixed apology; an
exception matching the transient marker retries while
attempt < max_attempts - 1 and is otherwise re-raised; any other exception
is re-raised at once; a non-blank output is returned as is. -/
def runAgentAux (exec : ℕ → ExecAttempt) : ℕ → ℕ → RunOutcome × ℕ
  | _, 0 => (.reply apologyExhausted, 0)
  | attempt, fuel + 1 =>
    match exec attempt with
    | .ok out =>
      if isBlankOut out then
        if attempt < maxAttempts - 1 then
          let r := runAgentAux exec (attempt + 1) fuel
          (r.1, r.2 + 1)
        else (.reply apologyEmpty, 1)
      else (.reply (out.getD ""), 1)
    | .error e =>
      if isTransientErr e ∧ attempt < maxAttempts - 1 then
        let r := runAgentAux exec (attempt + 1) fuel
        (r.1, r.2 + 1)
      else (.raised e, 1)

/-- _run_agent_non_stream (main.py lines 462-482): the loop entered at
attempt 0, paired with the number of executor attempts actually made. -/
def runAgentNonStream (exec : ℕ → ExecAttempt) : RunOutcome × ℕ :=
  runAgentAux exec 0 maxAttempts

/-! ## The streaming relay, _handle_agent_stream (main.py lines 438-459) -/

/-- The fixed timeout message of main.py line 453. -/
def timeoutText : String := "Request timed out — the model took too long to respond."

/-- What the bounded wait asyncio.wait_for(_run_agent_non_stream ..., 30)
produces: either a TimeoutError, or the dispatch finishes with its
outcome. -/
inductive WaitResult
  | timedOut
  | finished (r : RunOutcome)
deriving DecidableEq

/-- _handle_agent_stream (main.py lines 438-459): emits stream_start, then
on a finished dispatch one stream_delta with the full text followed by
stream_end; on timeout an error with the fixed message; on a raised
exception an error carrying its description. -/
def handleAgentStream : WaitResult → List Msg
  | .timedOut => [.streamStart, .error timeoutText]
  | .finished (.reply s) => [.streamStart, .streamDelta s, .streamEnd]
  | .finished (.raised e) => [.streamStart, .error e]

/-! ## The wake-word gate (main.py lines 486 and 508-519)

_WAKE_RE = re.compile of backslash-b obs [\s,.:!?]+ (.+) with IGNORECASE,
applied with re.search to text.strip(); the command is group(1).strip().
The embedding implements exactly this pattern with the backtracking
semantics of the re module: positions are tried left to right; the
word-boundary assertion before the literal obs (whose first character is a
word character) holds iff the previous character is absent or not a word
character; the separator class is greedy with backtracking; the dot of
(.+) matches any character except newline and is greedy. Character classes
are modelled by their ASCII parts. -/

/-- The separator class [\s,.:!?] of _WAKE_RE (main.py line 486). -/
def isWakeSep (c : Char) : Bool :=
  isPySpace c || c = ',' || c = '.' || c = ':' || c = '!' || c = '?'

/-- The regex word-character class backslash-w (ASCII part). -/
def isWordChar (c : Char) : Bool :=
  c.isAlphanum || c = '_'

/-- The greedy (.+) of the pattern: consumes the maximal nonempty run of
non-newline characters, failing on an empty run. -/
def dotPlus : List Char → Option (List Char)
  | [] => none
  | c :: rest => if c = '\n' then none else some (c :: rest.takeWhile (fun d => d != '\n'))

/-- Matching the tail [\s,.:!?]* (.+) after at least one separator has been
consumed: the separator run is extended greedily, backtracking to let (.+)
start earlier when the longer run leaves it nothing to match. Returns
group(1) on success. -/
def afterSeps : List Char → Option (List Char)
  | [] => none
  | c :: rest =>
    if isWakeSep c then
      match afterSeps rest with
      | some g => some g
      | none => dotPlus (c :: rest)
    else dotPlus (c :: rest)

/-- Matching obs [\s,.:!?]+ (.+) anchored at the head of the list,
case-insensitively; the word boundary is checked by the caller. Returns
group(1) on success. -/
def matchWakeAt : List Char → Option (List Char)
  | o :: b :: s :: c :: rest =>
    if o.toLower = 'o' && b.toLower = 'b' && s.toLower = 's' && isWakeSep c then
      afterSeps rest
    else none
  | _ => none

/-- re.search of _WAKE_RE: positions are tried left to right; prevWord says
whether the character before the current position is a word character, so
the boundary assertion holds exactly when it is false. Returns group(1) of
the leftmost match. -/
def wakeSearch : Bool → List Char → Option (List Char)
  | _, [] => none
  | prevWord, c :: rest =>
    match if prevWord then none else matchWakeAt (c :: rest) with
    | some g => some g
    | none => wakeSearch (isWordChar c) rest

/-- The wake-word gate of _handle_transcription (main.py lines 509-511):
search _WAKE_RE in text.strip() and return group(1).strip(), or None when
the pattern does not match. -/
def extract (text : String) : Option String :=
  match wakeSearch false (pyStrip text.toList) with
  | some g => some (String.mk (pyStrip g))
  | none => none

/-- _handle_transcription (main.py lines 508-519): on a wake-word match,
send the transcription message carrying the raw text and then run the
command dispatch (whose bounded-wait outcome is w); otherwise only log,
emitting nothing. -/
def handleTranscription (w : WaitResult) (text : String) : List Msg :=
  match extract text with
  | some _ => Msg.transcription text :: handleAgentStream w
  | none => []

/-! ## The session message loop, websocket_chat (main.py lines 489-566) -/

/-- A JSON value sitting in a field of an inbound message object; the
protocol only ever carries strings, integers and booleans, and the loop
only reads string and integer fields (booleans are sent, not received). -/
inductive JsonField
  | str (s : String)
  | int (n : ℤ)
deriving DecidableEq

/-- One inbound frame, as seen after json.loads (main.py line 524):
either the text was not well-formed JSON, so json.loads raises, or it
parsed to an object with the given fields (keys are unique). -/
inductive InMsg
  | malformed
  | obj (fields : List (String × JsonField))
deriving DecidableEq

/-- The per-connection mutable state of websocket_chat: the obs connection
flag (obs_client and deps, main.py lines 491-493 and 536-538) and the
listener reference (main.py line 495). -/
structure SessionState where
  obsConnected : Bool
  listener : Option ListenerSt
deriving DecidableEq

/-- The session state right after accept: no obs client, no listener. -/
def SessionState.init : SessionState := ⟨false, none⟩

/-- The external outcomes one loop iteration can depend on: what the
bounded agent dispatch would produce, and what connect_obs would return. -/
structure SessionEnv where
  agentResult : WaitResult
  connectOk : Bool
  connectMsg : String

/-- The fate of one loop iteration: the messages sent and the loop
continuing, or an uncaught exception escaping the while-loop (only
WebSocketDisconnect is caught outside it, main.py line 563), which ends
the session. -/
inductive StepResult
  | ok (out : List Msg)
  | crash (reason : String)
deriving DecidableEq

/-- msg_type = data.get("type", "") (main.py line 525). A missing field
gives "", and a non-string value compares unequal to every branch label,
which the model folds to "" as well; both fall through to no action. -/
def msgTypeOf (fields : List (String × JsonField)) : String :=
  match fields.lookup "type" with
  | some (.str s) => s
  | _ => ""

/-- A nonempty all-digit character run read as a natural number. -/
def digitsToNat : List Char → Option ℕ
  | [] => none
  | ds =>
    if ds.all (fun c => c.isDigit) then
      some (ds.foldl (fun n c => n * 10 + (c.toNat - 48)) 0)
    else none

/-- Python int(x) on a JSON value: an int is returned as is, a string is
parsed as an optionally signed integer literal after stripping whitespace
(digit-group underscores are not modelled), raising ValueError (none)
otherwise. -/
def pyInt : JsonField → Option ℤ
  | .int n => some n
  | .str s =>
    match pyStrip s.toList with
    | '+' :: ds => (digitsToNat ds).map (fun n => (n : ℤ))
    | '-' :: ds => (digitsToNat ds).map (fun n => -(n : ℤ))
    | ds => (digitsToNat ds).map (fun n => (n : ℤ))

/-- Python truthiness of a JSON value, used by `if not user_message`
(main.py line 529). -/
def pyTruthy : JsonField → Bool
  | .int n => n != 0
  | .str s => s != ""

/-- Whether the session currently owns a running listener
(`listener is None or not listener.running`, main.py lines 546 and 555). -/
def listenerRunning (st : SessionState) : Bool :=
  match st.listener with
  | some l => l.running
  | none => false

/-- One iteration of the websocket_chat receive loop (main.py lines
522-561) on one inbound frame. Malformed JSON raises out of the loop. A
"message" frame with truthy content runs the agent dispatch. An
"obs_connect" frame converts the port with int(), which raises on a
non-integer value, then connects and reports obs_status. "voice_start"
creates and starts a listener unless one is running, and always replies
with voice_status true; "voice_stop" stops and clears a running listener,
and always replies with voice_status false. Any other (or missing) type
falls through: no action. -/
def sessionStep (env : SessionEnv) (st : SessionState) (m : InMsg) :
    StepResult × SessionState :=
  match m with
  | .malformed => (.crash "json.loads raised JSONDecodeError", st)
  | .obj fields =>
    let ty := msgTypeOf fields
    if ty = "message" then
      let truthy := match fields.lookup "content" with
        | some v => pyTruthy v
        | none => false
      if truthy then (.ok (handleAgentStream env.agentResult), st)
      else (.ok [], st)
    else if ty = "obs_connect" then
      match pyInt ((fields.lookup "port").getD (.int 4455)) with
      | none => (.crash "int(port) raised ValueError", st)
      | some _ =>
        (.ok [.obsStatus env.connectOk env.connectMsg],
          { st with obsConnected := env.connectOk })
    else if ty = "voice_start" then
      let st' :=
        if listenerRunning st then st
        else { st with listener := some (VoiceListener.start ListenerSt.init) }
      (.ok [.voiceStatus true], st')
    else if ty = "voice_stop" then
      let st' :=
        if listenerRunning st then { st with listener := none } else st
      (.ok [.voiceStatus false], st')
    else (.ok [], st)

/-- Running the receive loop over a list of inbound frames, each with the
external outcomes of its iteration: the messages sent, the final state,
and whether the loop is still alive (true) or was ended by an uncaught
exception (false). -/
def sessionRun (st : SessionState) : List (SessionEnv × InMsg) → List Msg × SessionState × Bool
  | [] => ([], st, true)
  | (env, m) :: rest =>
    match sessionStep env st m with
    | (.ok out, st') =>
      let r := sessionRun st' rest
      (out ++ r.1, r.2.1, r.2.2)
    | (.crash _, st') => ([], st', false)

/-! ## Reachability invariant of the VAD state -/

/-- The states audio_cb can actually be in, starting from the initial
state: when idle the buffer is empty and the counter zero; when speaking
the counter is below silence_blocks, and the buffer decomposes as
arbitrary blocks, then a speech block, then exactly silentCount trailing
silence blocks. -/
def VadInv (st : VadState) : Prop :=
  (st.isSpeaking = false → st.buffer = [] ∧ st.silentCount = 0) ∧
  (st.isSpeaking = true →
    st.silentCount < silenceBlocks ∧
    ∃ pre sb tail, st.buffer = pre ++ sb :: tail ∧
      isSpeechBlock sb = true ∧
      (∀ t ∈ tail, isSpeechBlock t = false) ∧
      tail.length = st.silentCount)

/-- Every block in the buffer has the device block size; the device
delivers exactly blocksize frames per callback, so this is preserved
whenever the incoming chunks do. -/
def BuffersFull (st : VadState) : Prop :=
  ∀ b ∈ st.buffer, b.length = blockSize

/-! # Theorems

First the facts about the embedding that several claims rely on, then one
theorem per claim of the specification review, in order. -/

/-! ## Basic facts about the VAD embedding -/

theorem silenceBlocks_eq : silenceBlocks = 3 := by
  have h : SILENCE_TIMEOUT / BLOCK_DURATION = (3 : ℚ) := by
    rw [SILENCE_TIMEOUT, BLOCK_DURATION]; norm_num
  rw [silenceBlocks, h]
  norm_num
  rfl

theorem blockSize_eq : blockSize = 8000 := by
  have h : (SAMPLE_RATE : ℚ) * BLOCK_DURATION = (8000 : ℚ) := by
    rw [SAMPLE_RATE, BLOCK_DURATION]; norm_num
  rw [blockSize, h]
  norm_num
  rfl

theorem rmsSq_nonneg (b : List ℚ) : 0 ≤ rmsSq b := by
  unfold rmsSq
  apply div_nonneg
  · apply List.sum_nonneg
    intro x hx
    obtain ⟨y, _, rfl⟩ := List.mem_map.mp hx
    exact mul_self_nonneg y
  · exact_mod_cast Nat.zero_le _

/-- The embedded squared comparison agrees with the source form
rms(chunk) > SILENCE_THRESHOLD, where rms is the real square root of the
mean square (voice.py lines 20-21 and 75). -/
theorem isSpeechBlock_iff_sqrt (b : List ℚ) :
    isSpeechBlock b = true ↔ (1 / 100 : ℝ) < Real.sqrt ((rmsSq b : ℚ) : ℝ) := by
  rw [isSpeechBlock, decide_eq_true_iff]
  rw [show ((1 : ℝ) / 100) = ((1 / 100 : ℚ) : ℝ) by norm_num]
  rw [Real.lt_sqrt (by positivity)]
  rw [show SILENCE_THRESHOLD = 1 / 100 from rfl]
  constructor
  · intro h
    have : ((1 / 100 : ℚ) * (1 / 100 : ℚ) : ℝ) < ((rmsSq b : ℚ) : ℝ) := by exact_mod_cast h
    calc ((1 / 100 : ℚ) : ℝ) ^ 2 = ((1 / 100 : ℚ) * (1 / 100 : ℚ) : ℝ) := by push_cast; ring
    _ < _ := this
  · intro h
    have h2 : ((1 / 100 : ℚ) * (1 / 100 : ℚ) : ℝ) < ((rmsSq b : ℚ) : ℝ) := by
      calc ((1 / 100 : ℚ) * (1 / 100 : ℚ) : ℝ) = ((1 / 100 : ℚ) : ℝ) ^ 2 := by push_cast; ring
      _ < _ := h
    exact_mod_cast h2

/-! ## Evaluation lemmas for audio_cb -/

theorem audioCb_speech (st : VadState) (b : List ℚ) (hb : isSpeechBlock b = true) :
    audioCb st b = (⟨true, 0, st.buffer ++ [b]⟩, none) := by
  rw [audioCb, hb]
  simp

theorem audioCb_silent_idle (st : VadState) (b : List ℚ)
    (hb : isSpeechBlock b = false) (hs : st.isSpeaking = false) :
    audioCb st b = (st, none) := by
  rw [audioCb, hb, hs]
  simp

theorem audioCb_silent_speaking_low (st : VadState) (b : List ℚ)
    (hb : isSpeechBlock b = false) (hs : st.isSpeaking = true)
    (hc : st.silentCount + 1 < silenceBlocks) :
    audioCb st b = (⟨true, st.silentCount + 1, st.buffer ++ [b]⟩, none) := by
  rw [audioCb, hb, hs]
  simp only [Bool.false_eq_true, if_false, if_true]
  rw [if_neg (by omega)]

theorem audioCb_silent_commit (st : VadState) (b : List ℚ)
    (hb : isSpeechBlock b = false) (hs : st.isSpeaking = true)
    (hc : silenceBlocks ≤ st.silentCount + 1) :
    audioCb st b =
      (⟨false, 0, []⟩,
        if MIN_SPEECH_DURATION ≤ ((st.buffer ++ [b]).flatten.length : ℚ) / (SAMPLE_RATE : ℚ)
        then some (st.buffer ++ [b]).flatten else none) := by
  rw [audioCb, hb, hs]
  simp only [Bool.false_eq_true, if_false, if_true]
  rw [if_pos hc]

/-- A block of n copies of a unit sample is classified as speech for n > 0
(its RMS is 1, far above the threshold). -/
theorem isSpeechBlock_replicate_one (n : ℕ) (hn : 0 < n) :
    isSpeechBlock (List.replicate n (1 : ℚ)) = true := by
  have hmap : (List.replicate n (1 : ℚ)).map (fun x => x * x) = List.replicate n (1 : ℚ) := by
    simp
  rw [isSpeechBlock, rmsSq, hmap, List.sum_replicate, List.length_replicate]
  rw [decide_eq_true_iff, SILENCE_THRESHOLD]
  rw [nsmul_eq_mul, mul_one, div_self (by exact_mod_cast hn.ne')]
  norm_num

/-- A block of zero samples is classified as silence (its RMS is 0). -/
theorem isSpeechBlock_replicate_zero (n : ℕ) :
    isSpeechBlock (List.replicate n (0 : ℚ)) = false := by
  have hmap : (List.replicate n (0 : ℚ)).map (fun x => x * x) = List.replicate n (0 : ℚ) := by
    simp
  rw [isSpeechBlock, rmsSq, hmap, List.sum_replicate]
  rw [decide_eq_false_iff_not, SILENCE_THRESHOLD]
  rw [nsmul_eq_mul, mul_zero, zero_div]
  norm_num

/-! ## The VAD invariant: initial state, preservation, traces -/

theorem vadInv_init : VadInv VadState.init :=
  ⟨fun _ => ⟨rfl, rfl⟩, fun h => by simp [VadState.init] at h⟩

theorem buffersFull_init : BuffersFull VadState.init := by
  intro b hb
  simp [VadState.init, BuffersFull] at hb

theorem vadInv_preserved (st : VadState) (b : List ℚ) (h : VadInv st) :
    VadInv (audioCb st b).1 := by
  obtain ⟨hidle, hspeak⟩ := h
  cases hb : isSpeechBlock b with
  | true =>
    rw [audioCb_speech st b hb]
    show VadInv ⟨true, 0, st.buffer ++ [b]⟩
    refine ⟨fun hf => by simp at hf, fun _ => ?_⟩
    refine ⟨?_, st.buffer, b, [], by simp, hb, by simp, rfl⟩
    show (0 : ℕ) < silenceBlocks
    rw [silenceBlocks_eq]
    omega
  | false =>
    cases hs : st.isSpeaking with
    | false =>
      rw [audioCb_silent_idle st b hb hs]
      exact ⟨hidle, fun ht => absurd (hs ▸ ht) (by simp)⟩
    | true =>
      by_cases hc : silenceBlocks ≤ st.silentCount + 1
      · rw [audioCb_silent_commit st b hb hs hc]
        exact ⟨fun _ => ⟨rfl, rfl⟩, fun hf => by simp at hf⟩
      · obtain ⟨hcount, pre, sb, tail, hbuf, hsb, htail, hlen⟩ := hspeak hs
        rw [audioCb_silent_speaking_low st b hb hs (by omega)]
        show VadInv ⟨true, st.silentCount + 1, st.buffer ++ [b]⟩
        refine ⟨fun hf => by simp at hf, fun _ => ?_⟩
        refine ⟨?_, pre, sb, tail ++ [b], ?_, hsb, ?_, ?_⟩
        · show st.silentCount + 1 < silenceBlocks
          omega
        · simp [hbuf]
        · intro t ht
          rcases List.mem_append.mp ht with h1 | h1
          · exact htail t h1
          · rw [List.mem_singleton] at h1
            subst h1
            exact hb
        · simp [hlen]

theorem buffersFull_preserved (st : VadState) (b : List ℚ) (hful : BuffersFull st)
    (hb : b.length = blockSize) : BuffersFull (audioCb st b).1 := by
  cases hsp : isSpeechBlock b with
  | true =>
    rw [audioCb_speech st b hsp]
    intro x hx
    rcases List.mem_append.mp hx with h | h
    · exact hful x h
    · rw [List.mem_singleton] at h
      subst h
      exact hb
  | false =>
    cases hs : st.isSpeaking with
    | false =>
      rw [audioCb_silent_idle st b hsp hs]
      exact hful
    | true =>
      by_cases hc : silenceBlocks ≤ st.silentCount + 1
      · rw [audioCb_silent_commit st b hsp hs hc]
        intro x hx
        simp at hx
      · rw [audioCb_silent_speaking_low st b hsp hs (by omega)]
        intro x hx
        rcases List.mem_append.mp hx with h | h
        · exact hful x h
        · rw [List.mem_singleton] at h
          subst h
          exact hb

theorem vadSteps_inv (bs : List (List ℚ)) (st : VadState)
    (hbs : ∀ b ∈ bs, b.length = blockSize)
    (hinv : VadInv st) (hful : BuffersFull st) :
    ∀ p ∈ vadSteps st bs, VadInv p.1 ∧ BuffersFull p.1 ∧ p.2.length = blockSize := by
  induction bs generalizing st with
  | nil =>
    intro p hp
    simp [vadSteps] at hp
  | cons b bs ih =>
    intro p hp
    rw [vadSteps] at hp
    rcases List.mem_cons.mp hp with rfl | hp'
    · exact ⟨hinv, hful, hbs b (by simp)⟩
    · exact ih (audioCb st b).1 (fun x hx => hbs x (by simp [hx]))
        (vadInv_preserved st b hinv)
        (buffersFull_preserved st b hful (hbs b (by simp))) p hp'

/-- Whatever audio_cb hands to the queue passed the minimum-duration test. -/
theorem audioCb_emits_ge_min (st : VadState) (b : List ℚ) (u : List ℚ)
    (h : (audioCb st b).2 = some u) :
    MIN_SPEECH_DURATION ≤ (u.length : ℚ) / (SAMPLE_RATE : ℚ) := by
  cases hsp : isSpeechBlock b with
  | true =>
    rw [audioCb_speech st b hsp] at h
    simp at h
  | false =>
    cases hs : st.isSpeaking with
    | false =>
      rw [audioCb_silent_idle st b hsp hs] at h
      simp at h
    | true =>
      by_cases hc : silenceBlocks ≤ st.silentCount + 1
      · rw [audioCb_silent_commit st b hsp hs hc] at h
        by_cases hd : MIN_SPEECH_DURATION ≤
            (((st.buffer ++ [b]).flatten.length : ℚ) / (SAMPLE_RATE : ℚ))
        · rw [if_pos hd] at h
          simp only [Option.some.injEq] at h
          subst h
          exact hd
        · rw [if_neg hd] at h
          simp at h
      · rw [audioCb_silent_speaking_low st b hsp hs (by omega)] at h
        simp at h

/-! ## Stepping lemmas for the retry loop -/

theorem runAgentAux_ok_step (exec : ℕ → ExecAttempt) (attempt fuel : ℕ)
    (o : Option String) (h : exec attempt = .ok o) :
    runAgentAux exec attempt (fuel + 1) =
      if isBlankOut o = true then
        if attempt < maxAttempts - 1 then
          ((runAgentAux exec (attempt + 1) fuel).1,
            (runAgentAux exec (attempt + 1) fuel).2 + 1)
        else (.reply apologyEmpty, 1)
      else (.reply (o.getD ""), 1) := by
  rw [runAgentAux, h]

theorem runAgentAux_error_step (exec : ℕ → ExecAttempt) (attempt fuel : ℕ)
    (e : String) (h : exec attempt = .error e) :
    runAgentAux exec attempt (fuel + 1) =
      if isTransientErr e = true ∧ attempt < maxAttempts - 1 then
        ((runAgentAux exec (attempt + 1) fuel).1,
          (runAgentAux exec (attempt + 1) fuel).2 + 1)
      else (.raised e, 1) := by
  rw [runAgentAux, h]

/-! ## Claim C1: draining the channel on stop -/

/-- C1, counterexample. The claim says that every utterance enqueued before
stop() is still processed by the worker before it consumes the sentinel.
With two utterances queued at the moment stop() runs, the worker processes
at most the one whose blocking receive was already in flight: stop()
clears _running before pushing the sentinel, and the worker re-tests
_running at the top of each iteration, so it exits without draining the
queue; resumed at the loop condition it processes nothing at all. -/
theorem c1_counterexample :
    queuedUtterances [some [1], some [2]] = [[1], [2]] ∧
    (VoiceListener.stop ⟨true, [some [1], some [2]]⟩).queue =
      [some [1], some [2], none] ∧
    transcribeFrom (VoiceListener.stop ⟨true, [some [1], some [2]]⟩).running
      (VoiceListener.stop ⟨true, [some [1], some [2]]⟩).queue = [] ∧
    transcribeFromGet (VoiceListener.stop ⟨true, [some [1], some [2]]⟩).running
      (VoiceListener.stop ⟨true, [some [1], some [2]]⟩).queue = [[1]] ∧
    transcribeFromGet (VoiceListener.stop ⟨true, [some [1], some [2]]⟩).running
      (VoiceListener.stop ⟨true, [some [1], some [2]]⟩).queue ≠ [[1], [2]] := by
  refine ⟨rfl, rfl, rfl, rfl, by decide⟩

/-- C1, amended. stop() clears the running flag and then pushes the None
sentinel, which unblocks a blocked receive; but because the worker loop
re-tests the flag at the top of every iteration, it does not drain the
queue: resumed at the loop condition it processes no further utterance,
and resumed inside an in-flight receive it processes at most the single
utterance at the head of the queue before exiting. Queued utterances
beyond that one are dropped, and the sentinel itself need never be
consumed. -/
theorem c1_amended (s : ListenerSt) (u : List ℚ) (q : List (Option (List ℚ))) :
    (VoiceListener.stop s).running = false ∧
    (VoiceListener.stop s).queue = s.queue ++ [none] ∧
    transcribeFrom (VoiceListener.stop s).running q = [] ∧
    transcribeFromGet (VoiceListener.stop s).running (some u :: q) = [u] ∧
    (transcribeFromGet (VoiceListener.stop s).running q).length ≤ 1 := by
  have hrun : (VoiceListener.stop s).running = false := rfl
  have hfrom : ∀ q' : List (Option (List ℚ)), transcribeFrom false q' = [] := by
    intro q'
    match q' with
    | [] => rfl
    | none :: rest => rfl
    | some a :: rest => simp [transcribeFrom]
  refine ⟨hrun, rfl, by rw [hrun]; exact hfrom q, by rw [hrun]; simp [transcribeFromGet, hfrom], ?_⟩
  rw [hrun]
  match q with
  | [] => simp [transcribeFromGet]
  | none :: rest => simp [transcribeFromGet]
  | some a :: rest => simp [transcribeFromGet, hfrom]

/-! ## Claim C2: transient executor errors and the attempt budget -/

/-- C2, counterexample. The claim says a transient-class executor error is
retried up to the 3-attempt budget and then degrades to the fixed apology,
never surfacing as a protocol error message. In fact, when every attempt
raises a transient-marker error, the third attempt falls out of the
`attempt < max_attempts - 1` guard and re-raises, and the relay then emits
a protocol error message carrying the description; no apology is sent. -/
theorem c2_counterexample :
    isTransientErr "nil" = true ∧
    runAgentNonStream (fun _ => .error "nil") = (.raised "nil", 3) ∧
    handleAgentStream (.finished (runAgentNonStream (fun _ => .error "nil")).1) =
      [.streamStart, .error "nil"] ∧
    Msg.error "nil" ∈
      handleAgentStream (.finished (runAgentNonStream (fun _ => .error "nil")).1) ∧
    Msg.streamDelta apologyEmpty ∉
      handleAgentStream (.finished (runAgentNonStream (fun _ => .error "nil")).1) ∧
    Msg.streamDelta apologyExhausted ∉
      handleAgentStream (.finished (runAgentNonStream (fun _ => .error "nil")).1) := by
  refine ⟨by decide, by decide, by decide, by decide, by decide, by decide⟩

/-- C2, amended. A transient-class executor error (description matching
the transient-provider marker) is retried on the first two attempts; a
transient error on the third attempt is re-raised after exactly 3 executor
calls, and the relay surfaces it to the connection as a protocol error
message carrying the description. The fixed-apology degradation applies
only to empty/blank results, not to the transient error class. -/
theorem c2_amended (exec : ℕ → ExecAttempt) (e0 e1 e2 : String)
    (h0 : exec 0 = .error e0) (ht0 : isTransientErr e0 = true)
    (h1 : exec 1 = .error e1) (ht1 : isTransientErr e1 = true)
    (h2 : exec 2 = .error e2) (_ht2 : isTransientErr e2 = true) :
    runAgentNonStream exec = (.raised e2, 3) ∧
    handleAgentStream (.finished (runAgentNonStream exec).1) =
      [.streamStart, .error e2] := by
  have s0 := runAgentAux_error_step exec 0 2 e0 h0
  have s1 := runAgentAux_error_step exec 1 1 e1 h1
  have s2 := runAgentAux_error_step exec 2 0 e2 h2
  rw [if_pos ⟨ht0, by decide⟩] at s0
  rw [if_pos ⟨ht1, by decide⟩] at s1
  rw [if_neg (fun hcon => absurd hcon.2 (by decide))] at s2
  norm_num at s0 s1 s2
  have hrun : runAgentNonStream exec = (.raised e2, 3) := by
    rw [runAgentNonStream]
    show runAgentAux exec 0 3 = _
    rw [s0, s1, s2]
  exact ⟨hrun, by rw [hrun]; rfl⟩

/-- C2, witness for the amended theorem at a concrete transient-erroring
executor stub. -/
theorem c2_witness :
    runAgentNonStream (fun _ => .error "invalid_request_error: no content") =
      (.raised "invalid_request_error: no content", 3) ∧
    handleAgentStream
        (.finished (runAgentNonStream
          (fun _ => .error "invalid_request_error: no content")).1) =
      [.streamStart, .error "invalid_request_error: no content"] :=
  c2_amended (fun _ => .error "invalid_request_error: no content") _ _ _
    rfl (by decide) rfl (by decide) rfl (by decide)

/-! ## Claim C7: blank results, the retry budget, and the apology -/

/-- C7. An executor whose first two attempts return empty/blank output and
whose third returns a non-blank result makes the dispatch return that
result after exactly 3 attempts, and the relay emits only the
start/delta/end envelope (no retry is visible in the protocol output). An
executor all of whose attempts return empty/blank output makes the
dispatch return the fixed apology after exactly 3 attempts, and the relay
emits the delta carrying the apology followed by stream_end — no error
message. -/
theorem c7_retry_budget (exec execAll : ℕ → ExecAttempt) (o0 o1 : Option String)
    (s : String)
    (h0 : exec 0 = .ok o0) (hb0 : isBlankOut o0 = true)
    (h1 : exec 1 = .ok o1) (hb1 : isBlankOut o1 = true)
    (h2 : exec 2 = .ok (some s)) (hs : isBlankOut (some s) = false)
    (hall : ∀ n, n < 3 → ∃ ob, execAll n = .ok ob ∧ isBlankOut ob = true) :
    runAgentNonStream exec = (.reply s, 3) ∧
    handleAgentStream (.finished (runAgentNonStream exec).1) =
      [.streamStart, .streamDelta s, .streamEnd] ∧
    runAgentNonStream execAll = (.reply apologyEmpty, 3) ∧
    handleAgentStream (.finished (runAgentNonStream execAll).1) =
      [.streamStart, .streamDelta apologyEmpty, .streamEnd] ∧
    ∀ c, Msg.error c ∉ handleAgentStream (.finished (runAgentNonStream execAll).1) := by
  have s0 := runAgentAux_ok_step exec 0 2 o0 h0
  have s1 := runAgentAux_ok_step exec 1 1 o1 h1
  have s2 := runAgentAux_ok_step exec 2 0 (some s) h2
  rw [if_pos hb0, if_pos (by decide)] at s0
  rw [if_pos hb1, if_pos (by decide)] at s1
  rw [if_neg (by rw [hs]; exact Bool.false_ne_true)] at s2
  norm_num at s0 s1 s2
  have hrun : runAgentNonStream exec = (.reply s, 3) := by
    rw [runAgentNonStream]
    show runAgentAux exec 0 3 = _
    rw [s0, s1, s2]
  obtain ⟨ob0, ha0, hba0⟩ := hall 0 (by norm_num)
  obtain ⟨ob1, ha1, hba1⟩ := hall 1 (by norm_num)
  obtain ⟨ob2, ha2, hba2⟩ := hall 2 (by norm_num)
  have t0 := runAgentAux_ok_step execAll 0 2 ob0 ha0
  have t1 := runAgentAux_ok_step execAll 1 1 ob1 ha1
  have t2 := runAgentAux_ok_step execAll 2 0 ob2 ha2
  rw [if_pos hba0, if_pos (by decide)] at t0
  rw [if_pos hba1, if_pos (by decide)] at t1
  rw [if_pos hba2, if_neg (by decide)] at t2
  norm_num at t0 t1 t2
  have hrunAll : runAgentNonStream execAll = (.reply apologyEmpty, 3) := by
    rw [runAgentNonStream]
    show runAgentAux execAll 0 3 = _
    rw [t0, t1, t2]
  refine ⟨hrun, by rw [hrun]; rfl, hrunAll, by rw [hrunAll]; rfl, ?_⟩
  intro c
  rw [hrunAll]
  simp [handleAgentStream]

/-- C7, witness: the concrete stubs of the testable property — blank twice
then a valid reply, and always blank. -/
theorem c7_witness :
    runAgentNonStream (fun n => if n < 2 then .ok (some "") else .ok (some "done")) =
      (.reply "done", 3) ∧
    handleAgentStream (.finished (runAgentNonStream
        (fun n => if n < 2 then .ok (some "") else .ok (some "done"))).1) =
      [.streamStart, .streamDelta "done", .streamEnd] ∧
    runAgentNonStream (fun _ => .ok none) = (.reply apologyEmpty, 3) ∧
    handleAgentStream (.finished (runAgentNonStream (fun _ => .ok none)).1) =
      [.streamStart, .streamDelta apologyEmpty, .streamEnd] ∧
    ∀ c, Msg.error c ∉ handleAgentStream (.finished (runAgentNonStream (fun _ => .ok none)).1) :=
  c7_retry_budget (fun n => if n < 2 then .ok (some "") else .ok (some "done"))
    (fun _ => .ok none) (some "") (some "") "done"
    rfl (by decide) rfl (by decide) rfl (by decide)
    (fun _ _ => ⟨none, rfl, rfl⟩)

/-! ## Claim C3: malformed inbound messages -/

/-- C3, counterexample. The claim says a malformed inbound message (for
example text that is not well-formed JSON) produces no action and never
terminates the session. In fact json.loads raises on such text before any
branch runs, and the receive loop only catches WebSocketDisconnect, so the
exception escapes the loop and the session ends. -/
theorem c3_counterexample :
    sessionStep ⟨.timedOut, false, "x"⟩ SessionState.init .malformed =
      (.crash "json.loads raised JSONDecodeError", SessionState.init) ∧
    (sessionRun SessionState.init [(⟨.timedOut, false, "x"⟩, .malformed)]).2.2 = false := by
  exact ⟨rfl, rfl⟩

/-- C3, amended. An inbound JSON object whose "type" field is missing,
unknown, or not one of the four handled values produces no action and no
output, and the session keeps running; but inbound text that is not
well-formed JSON raises out of the loop and terminates the session, and so
does an "obs_connect" frame whose "port" value is not convertible by
int(). -/
theorem c3_amended (env : SessionEnv) (st : SessionState)
    (fields : List (String × JsonField))
    (hty : msgTypeOf fields ∉ (["message", "obs_connect", "voice_start", "voice_stop"] : List String)) :
    sessionStep env st (.obj fields) = (.ok [], st) ∧
    sessionStep env st .malformed = (.crash "json.loads raised JSONDecodeError", st) ∧
    sessionStep env st (.obj [("type", .str "obs_connect"), ("port", .str "abc")]) =
      (.crash "int(port) raised ValueError", st) := by
  simp only [List.mem_cons, List.mem_singleton, not_or] at hty
  obtain ⟨hty1, hty2, hty3, hty4, _⟩ := hty
  refine ⟨?_, rfl, rfl⟩
  simp only [sessionStep]
  rw [if_neg hty1, if_neg hty2, if_neg hty3, if_neg hty4]

/-- C3, witness for the amended theorem: a frame with an unknown type is a
no-op, a malformed frame and a bad port crash the loop. -/
theorem c3_witness :
    sessionStep ⟨.timedOut, false, "x"⟩ SessionState.init
        (.obj [("type", .str "bogus")]) = (.ok [], SessionState.init) ∧
    sessionStep ⟨.timedOut, false, "x"⟩ SessionState.init .malformed =
      (.crash "json.loads raised JSONDecodeError", SessionState.init) ∧
    sessionStep ⟨.timedOut, false, "x"⟩ SessionState.init
        (.obj [("type", .str "obs_connect"), ("port", .str "abc")]) =
      (.crash "int(port) raised ValueError", SessionState.init) :=
  c3_amended ⟨.timedOut, false, "x"⟩ SessionState.init
    [("type", JsonField.str "bogus")] (by decide)

/-! ## Claim C6: the streaming envelope and session survival -/

/-- C6. Every command dispatch first emits stream_start; when the executor
returns within the bounded wait the relay emits exactly one stream_delta
carrying the full result text followed by stream_end; when the wait times
out it emits an error with the fixed timeout text and no stream_end; when
any other exception is raised it emits an error carrying the description;
and in each case the loop iteration returns normally with the session
state unchanged, so the session keeps accepting further requests. -/
theorem c6_stream_envelope (env : SessionEnv) (st : SessionState) (s e c : String)
    (hc : c ≠ "") :
    (∀ w : WaitResult, (handleAgentStream w).head? = some .streamStart) ∧
    handleAgentStream (.finished (.reply s)) =
      [.streamStart, .streamDelta s, .streamEnd] ∧
    handleAgentStream .timedOut = [.streamStart, .error timeoutText] ∧
    Msg.streamEnd ∉ handleAgentStream .timedOut ∧
    handleAgentStream (.finished (.raised e)) = [.streamStart, .error e] ∧
    sessionStep env st (.obj [("type", .str "message"), ("content", .str c)]) =
      (.ok (handleAgentStream env.agentResult), st) := by
  have hstep : sessionStep env st (.obj [("type", .str "message"), ("content", .str c)]) =
      if (c != "") = true then (.ok (handleAgentStream env.agentResult), st)
      else (.ok [], st) := rfl
  refine ⟨?_, rfl, rfl, by decide, rfl, ?_⟩
  · intro w
    match w with
    | .timedOut => rfl
    | .finished (.reply s') => rfl
    | .finished (.raised e') => rfl
  · rw [hstep, if_pos (by simp [bne_iff_ne, hc])]

/-- C6, witness: the three outcomes at concrete inputs, and a
dispatching iteration that leaves the session alive. -/
theorem c6_witness :
    handleAgentStream (.finished (.reply "done")) =
      [.streamStart, .streamDelta "done", .streamEnd] ∧
    handleAgentStream .timedOut = [.streamStart, .error timeoutText] ∧
    handleAgentStream (.finished (.raised "boom")) = [.streamStart, .error "boom"] ∧
    sessionStep ⟨.finished (.reply "done"), false, "x"⟩ SessionState.init
        (.obj [("type", .str "message"), ("content", .str "hi")]) =
      (.ok (handleAgentStream (.finished (.reply "done"))), SessionState.init) := by
  have h := c6_stream_envelope ⟨.finished (.reply "done"), false, "x"⟩ SessionState.init
    "done" "boom" "hi" (by decide)
  exact ⟨h.2.1, h.2.2.1, h.2.2.2.2.1, h.2.2.2.2.2⟩

/-! ## Claim C9: idempotent voice lifecycle handling -/

/-- C9. voice_start while a listener is already running is a no-op on the
listener state that still replies with voice_status listening=true;
voice_stop while no listener is running is a no-op that still replies with
voice_status listening=false; and two sequential voice_start frames from
the initial state leave exactly one running listener while each frame
emits voice_status listening=true. -/
theorem c9_voice_idempotent (env1 env2 : SessionEnv) (st st2 : SessionState)
    (hrun : listenerRunning st = true) (hnot : listenerRunning st2 = false) :
    sessionStep env1 st (.obj [("type", .str "voice_start")]) =
      (.ok [.voiceStatus true], st) ∧
    sessionStep env1 st2 (.obj [("type", .str "voice_stop")]) =
      (.ok [.voiceStatus false], st2) ∧
    sessionRun SessionState.init
        [(env1, .obj [("type", .str "voice_start")]),
         (env2, .obj [("type", .str "voice_start")])] =
      ([.voiceStatus true, .voiceStatus true], ⟨false, some ⟨true, []⟩⟩, true) ∧
    listenerRunning ⟨false, some ⟨true, []⟩⟩ = true := by
  have h1 : sessionStep env1 st (.obj [("type", .str "voice_start")]) =
      (.ok [.voiceStatus true], if listenerRunning st then st
        else { st with listener := some (VoiceListener.start ListenerSt.init) }) := rfl
  have h2 : sessionStep env1 st2 (.obj [("type", .str "voice_stop")]) =
      (.ok [.voiceStatus false], if listenerRunning st2 then { st2 with listener := none }
        else st2) := rfl
  refine ⟨?_, ?_, rfl, rfl⟩
  · rw [h1, if_pos hrun]
  · rw [h2, if_neg (by rw [hnot]; exact Bool.false_ne_true)]

/-- C9, witness: concrete states on both sides of the idempotence facts. -/
theorem c9_witness :
    sessionStep ⟨.timedOut, false, "x"⟩ (⟨false, some ⟨true, []⟩⟩ : SessionState)
        (.obj [("type", .str "voice_start")]) =
      (.ok [.voiceStatus true], (⟨false, some ⟨true, []⟩⟩ : SessionState)) ∧
    sessionStep ⟨.timedOut, false, "x"⟩ SessionState.init
        (.obj [("type", .str "voice_stop")]) =
      (.ok [.voiceStatus false], SessionState.init) := by
  have h := c9_voice_idempotent ⟨.timedOut, false, "x"⟩ ⟨.timedOut, false, "x"⟩
    ⟨false, some ⟨true, []⟩⟩ SessionState.init rfl rfl
  exact ⟨h.1, h.2.1⟩

/-! ## Claim C4: the VAD transition discipline -/

/-- C4. The speech test is exactly RMS strictly above 0.01 (ties count as
silence); from Idle the state becomes Speaking exactly on a speech block;
from Speaking the state returns to Idle (the commit point) exactly when a
silent block arrives with the silent-run counter reaching the bound of 3
with equality; a speech block always resets the silent-run counter to 0;
and a silent block below the bound increments it by exactly one. -/
theorem c4_vad_transitions (st : VadState) (b : List ℚ) :
    (isSpeechBlock b = true ↔ (1 / 100 : ℝ) < Real.sqrt ((rmsSq b : ℚ) : ℝ)) ∧
    (st.isSpeaking = false →
      ((audioCb st b).1.isSpeaking = true ↔ isSpeechBlock b = true)) ∧
    (st.isSpeaking = true →
      ((audioCb st b).1.isSpeaking = false ↔
        (isSpeechBlock b = false ∧ 3 ≤ st.silentCount + 1))) ∧
    (isSpeechBlock b = true → (audioCb st b).1.silentCount = 0) ∧
    (st.isSpeaking = true → isSpeechBlock b = false → st.silentCount + 1 < 3 →
      (audioCb st b).1.silentCount = st.silentCount + 1) := by
  refine ⟨isSpeechBlock_iff_sqrt b, ?_, ?_, ?_, ?_⟩
  · intro hs
    cases hb : isSpeechBlock b with
    | true =>
      rw [audioCb_speech st b hb]
    | false =>
      rw [audioCb_silent_idle st b hb hs]
      simp [hs]
  · intro hs
    cases hb : isSpeechBlock b with
    | true =>
      rw [audioCb_speech st b hb]
      simp
    | false =>
      by_cases hc : silenceBlocks ≤ st.silentCount + 1
      · rw [audioCb_silent_commit st b hb hs hc]
        rw [silenceBlocks_eq] at hc
        simp [hc]
      · rw [audioCb_silent_speaking_low st b hb hs (by omega)]
        rw [silenceBlocks_eq] at hc
        simp
        omega
  · intro hb
    rw [audioCb_speech st b hb]
  · intro hs hb hc
    rw [audioCb_silent_speaking_low st b hb hs (by rw [silenceBlocks_eq]; omega)]

/-- C4, witness: from the idle initial state a unit block (RMS 1) starts
speech, and from a speaking state with two silent blocks counted a zero
block (RMS 0) commits and returns to Idle. -/
theorem c4_witness :
    (isSpeechBlock [1] = true ↔ (1 / 100 : ℝ) < Real.sqrt ((rmsSq [1] : ℚ) : ℝ)) ∧
    ((audioCb VadState.init [1]).1.isSpeaking = true ↔ isSpeechBlock [1] = true) ∧
    ((audioCb ⟨true, 2, [[1]]⟩ [0]).1.isSpeaking = false ↔
      (isSpeechBlock [0] = false ∧ 3 ≤ 2 + 1)) ∧
    (audioCb VadState.init [1]).1.silentCount = 0 :=
  ⟨(c4_vad_transitions VadState.init [1]).1,
   (c4_vad_transitions VadState.init [1]).2.1 rfl,
   (c4_vad_transitions ⟨true, 2, [[1]]⟩ [0]).2.2.1 rfl,
   (c4_vad_transitions VadState.init [1]).2.2.2.1
     (by simpa using isSpeechBlock_replicate_one 1 (by norm_num))⟩

/-! ## Claim C5: the minimum-duration filter -/

/-- C5. Over any block stream from any state, every utterance handed to
the channel has duration at least MIN_SPEECH_DURATION (0.5 s); a committed
candidate shorter than the minimum is discarded at the commit point and
never reaches the channel. -/
theorem c5_min_duration (st : VadState) (bs : List (List ℚ)) (u : List ℚ)
    (hu : u ∈ (runVad st bs).2) :
    MIN_SPEECH_DURATION ≤ (u.length : ℚ) / (SAMPLE_RATE : ℚ) := by
  induction bs generalizing st with
  | nil =>
    rw [runVad] at hu
    simp at hu
  | cons b bs ih =>
    rw [runVad] at hu
    simp only [List.mem_append] at hu
    rcases hu with h | h
    · have : (audioCb st b).2 = some u := by
        cases ho : (audioCb st b).2 with
        | none => rw [ho] at h; simp [Option.toList] at h
        | some v =>
          rw [ho] at h
          simp [Option.toList] at h
          rw [h]
      exact audioCb_emits_ge_min st b u this
    · exact ih (audioCb st b).1 h

/-- C5, witness: a speech block of 8000 unit samples followed by three
silent blocks of one zero sample commits a 8003-sample utterance, which is
at least half a second at 16 kHz. -/
theorem c5_witness :
    [List.replicate 8000 (1 : ℚ), [0], [0], [0]].flatten ∈
      (runVad VadState.init [List.replicate 8000 (1 : ℚ), [0], [0], [0]]).2 ∧
    MIN_SPEECH_DURATION ≤
      (([List.replicate 8000 (1 : ℚ), [0], [0], [0]].flatten.length : ℚ) /
        (SAMPLE_RATE : ℚ)) := by
  have hlen : [List.replicate 8000 (1 : ℚ), [0], [0], [0]].flatten.length = 8003 := by
    simp only [List.flatten_cons, List.flatten_nil, List.length_append,
      List.length_replicate, List.length_cons, List.length_nil]
  have hmem : [List.replicate 8000 (1 : ℚ), [0], [0], [0]].flatten ∈
      (runVad VadState.init [List.replicate 8000 (1 : ℚ), [0], [0], [0]]).2 := by
    have e1 : audioCb VadState.init (List.replicate 8000 (1 : ℚ)) =
        (⟨true, 0, [List.replicate 8000 (1 : ℚ)]⟩, none) := by
      rw [audioCb_speech _ _ (isSpeechBlock_replicate_one 8000 (by norm_num))]
      rfl
    have hz : isSpeechBlock [(0 : ℚ)] = false := by
      have := isSpeechBlock_replicate_zero 1
      simpa using this
    have e2 : audioCb ⟨true, 0, [List.replicate 8000 (1 : ℚ)]⟩ [(0 : ℚ)] =
        (⟨true, 1, [List.replicate 8000 (1 : ℚ), [0]]⟩, none) := by
      rw [audioCb_silent_speaking_low _ _ hz rfl (by rw [silenceBlocks_eq]; norm_num)]
      rfl
    have e3 : audioCb ⟨true, 1, [List.replicate 8000 (1 : ℚ), [0]]⟩ [(0 : ℚ)] =
        (⟨true, 2, [List.replicate 8000 (1 : ℚ), [0], [0]]⟩, none) := by
      rw [audioCb_silent_speaking_low _ _ hz rfl (by rw [silenceBlocks_eq]; norm_num)]
      rfl
    have hd : MIN_SPEECH_DURATION ≤
        (([List.replicate 8000 (1 : ℚ), [0], [0], [0]].flatten.length : ℚ) /
          (SAMPLE_RATE : ℚ)) := by
      rw [hlen, MIN_SPEECH_DURATION, show ((SAMPLE_RATE : ℕ) : ℚ) = 16000 from rfl]
      norm_num
    have e4 : audioCb ⟨true, 2, [List.replicate 8000 (1 : ℚ), [0], [0]]⟩ [(0 : ℚ)] =
        (⟨false, 0, []⟩, some [List.replicate 8000 (1 : ℚ), [0], [0], [0]].flatten) := by
      rw [audioCb_silent_commit _ _ hz rfl (by rw [silenceBlocks_eq])]
      rw [show ([List.replicate 8000 (1 : ℚ), [0], [0]] ++ [[(0 : ℚ)]]) =
        [List.replicate 8000 (1 : ℚ), [0], [0], [0]] from rfl]
      rw [if_pos hd]
    rw [runVad, e1]
    rw [runVad, e2]
    rw [runVad, e3]
    rw [runVad, e4]
    exact List.mem_cons_self _ _
  exact ⟨hmem, c5_min_duration VadState.init
    [List.replicate 8000 (1 : ℚ), [0], [0], [0]] _ hmem⟩

/-! ## Claim C10: committed candidates are long and always enqueued -/

theorem flatten_length_const (k : ℕ) :
    ∀ l : List (List ℚ), (∀ x ∈ l, x.length = k) → l.flatten.length = l.length * k
  | [], _ => by simp
  | x :: xs, h => by
    simp only [List.flatten_cons, List.length_append, List.length_cons]
    rw [h x (by simp), flatten_length_const k xs (fun y hy => h y (by simp [hy]))]
    ring

/-- C10. On any stream of device-sized blocks from the initial state, every
candidate committed at the silence-timeout point is actually enqueued (the
duration-below-minimum discard branch is never taken), and the candidate
consists of some blocks ending in a speech block followed by exactly three
trailing silence blocks, so its duration is at least 2.0 seconds. -/
theorem c10_commit_candidates (bs : List (List ℚ))
    (hbs : ∀ b ∈ bs, b.length = blockSize)
    (p : VadState × List ℚ) (hp : p ∈ vadSteps VadState.init bs)
    (hspeak : p.1.isSpeaking = true) (hsil : isSpeechBlock p.2 = false)
    (hcommit : silenceBlocks ≤ p.1.silentCount + 1) :
    (audioCb p.1 p.2).2 = some ((p.1.buffer ++ [p.2]).flatten) ∧
    (2 : ℚ) ≤ ((p.1.buffer ++ [p.2]).flatten.length : ℚ) / (SAMPLE_RATE : ℚ) ∧
    ∃ pre sb tail, p.1.buffer ++ [p.2] = pre ++ sb :: tail ∧
      isSpeechBlock sb = true ∧ tail.length = 3 ∧
      ∀ t ∈ tail, isSpeechBlock t = false := by
  obtain ⟨hinv, hful, hblen⟩ := vadSteps_inv bs VadState.init hbs vadInv_init buffersFull_init p hp
  obtain ⟨hcount, pre, sb, tail, hbuf, hsb, htail, hlen⟩ := hinv.2 hspeak
  rw [silenceBlocks_eq] at hcount hcommit
  have hsc : p.1.silentCount = 2 := by omega
  have hall : ∀ x ∈ p.1.buffer ++ [p.2], x.length = blockSize := by
    intro x hx
    rcases List.mem_append.mp hx with h | h
    · exact hful x h
    · rw [List.mem_singleton] at h
      subst h
      exact hblen
  have hflat : (p.1.buffer ++ [p.2]).flatten.length = (p.1.buffer ++ [p.2]).length * blockSize :=
    flatten_length_const blockSize _ hall
  have hnblocks : 4 ≤ (p.1.buffer ++ [p.2]).length := by
    rw [hbuf]
    simp only [List.length_append, List.length_cons, List.length_nil]
    omega
  have hdur : (2 : ℚ) ≤ ((p.1.buffer ++ [p.2]).flatten.length : ℚ) / (SAMPLE_RATE : ℚ) := by
    rw [hflat, blockSize_eq]
    rw [show ((SAMPLE_RATE : ℕ) : ℚ) = 16000 from rfl]
    rw [le_div_iff₀ (by norm_num : (0 : ℚ) < 16000)]
    have h4 : ((4 : ℕ) : ℚ) ≤ ((p.1.buffer ++ [p.2]).length : ℚ) := by
      exact_mod_cast hnblocks
    push_cast
    push_cast at h4
    nlinarith
  refine ⟨?_, hdur, pre, sb, tail ++ [p.2], ?_, hsb, ?_, ?_⟩
  · rw [audioCb_silent_commit p.1 p.2 hsil hspeak (by rw [silenceBlocks_eq]; omega)]
    rw [if_pos (le_trans (by rw [MIN_SPEECH_DURATION]; norm_num) hdur)]
  · rw [hbuf]
    simp
  · rw [List.length_append, hlen, hsc]
    rfl
  · intro t ht
    rcases List.mem_append.mp ht with h | h
    · exact htail t h
    · rw [List.mem_singleton] at h
      subst h
      exact hsil

/-- C10, witness: a device-sized speech block followed by three
device-sized silent blocks reaches the commit point and the candidate is
the whole 32000-sample buffer, lasting exactly 2 seconds. -/
theorem c10_witness :
    (audioCb ⟨true, 2, [List.replicate 8000 (1 : ℚ), List.replicate 8000 (0 : ℚ),
        List.replicate 8000 (0 : ℚ)]⟩ (List.replicate 8000 (0 : ℚ))).2 =
      some (([List.replicate 8000 (1 : ℚ), List.replicate 8000 (0 : ℚ),
        List.replicate 8000 (0 : ℚ)] ++ [List.replicate 8000 (0 : ℚ)]).flatten) ∧
    (2 : ℚ) ≤ ((([List.replicate 8000 (1 : ℚ), List.replicate 8000 (0 : ℚ),
        List.replicate 8000 (0 : ℚ)] ++ [List.replicate 8000 (0 : ℚ)]).flatten.length : ℚ) /
      (SAMPLE_RATE : ℚ)) := by
  have hone : isSpeechBlock (List.replicate 8000 (1 : ℚ)) = true :=
    isSpeechBlock_replicate_one 8000 (by norm_num)
  have hzero : isSpeechBlock (List.replicate 8000 (0 : ℚ)) = false :=
    isSpeechBlock_replicate_zero 8000
  have hlen8 : (List.replicate 8000 (0 : ℚ)).length = blockSize := by
    rw [List.length_replicate, blockSize_eq]
  have hlen1 : (List.replicate 8000 (1 : ℚ)).length = blockSize := by
    rw [List.length_replicate, blockSize_eq]
  have e1 : audioCb VadState.init (List.replicate 8000 (1 : ℚ)) =
      (⟨true, 0, [List.replicate 8000 (1 : ℚ)]⟩, none) := by
    rw [audioCb_speech _ _ hone]
    rfl
  have e2 : audioCb ⟨true, 0, [List.replicate 8000 (1 : ℚ)]⟩ (List.replicate 8000 (0 : ℚ)) =
      (⟨true, 1, [List.replicate 8000 (1 : ℚ), List.replicate 8000 (0 : ℚ)]⟩, none) := by
    rw [audioCb_silent_speaking_low _ _ hzero rfl (by rw [silenceBlocks_eq]; norm_num)]
    rfl
  have e3 : audioCb ⟨true, 1, [List.replicate 8000 (1 : ℚ), List.replicate 8000 (0 : ℚ)]⟩
      (List.replicate 8000 (0 : ℚ)) =
      (⟨true, 2, [List.replicate 8000 (1 : ℚ), List.replicate 8000 (0 : ℚ),
        List.replicate 8000 (0 : ℚ)]⟩, none) := by
    rw [audioCb_silent_speaking_low _ _ hzero rfl (by rw [silenceBlocks_eq]; norm_num)]
    rfl
  have hp : (⟨⟨true, 2, [List.replicate 8000 (1 : ℚ), List.replicate 8000 (0 : ℚ),
      List.replicate 8000 (0 : ℚ)]⟩, List.replicate 8000 (0 : ℚ)⟩ :
        VadState × List ℚ) ∈
      vadSteps VadState.init [List.replicate 8000 (1 : ℚ), List.replicate 8000 (0 : ℚ),
        List.replicate 8000 (0 : ℚ), List.replicate 8000 (0 : ℚ)] := by
    rw [vadSteps, e1]
    rw [vadSteps, e2]
    rw [vadSteps, e3]
    rw [vadSteps]
    exact List.mem_cons_of_mem _ (List.mem_cons_of_mem _
      (List.mem_cons_of_mem _ (List.mem_cons_self _ _)))
  have h := c10_commit_candidates
    [List.replicate 8000 (1 : ℚ), List.replicate 8000 (0 : ℚ),
      List.replicate 8000 (0 : ℚ), List.replicate 8000 (0 : ℚ)]
    (by
      intro b hb
      simp only [List.mem_cons, List.not_mem_nil, or_false] at hb
      rcases hb with rfl | rfl | rfl | rfl
      · exact hlen1
      · exact hlen8
      · exact hlen8
      · exact hlen8)
    _ hp rfl hzero (by rw [silenceBlocks_eq])
  exact ⟨h.1, h.2.1⟩

/-! ## Claim C8: the wake-word gate

Equation and matching lemmas for the regex embedding, then the claim. -/

theorem afterSeps_cons (c : Char) (rest : List Char) :
    afterSeps (c :: rest) =
      if isWakeSep c = true then
        match afterSeps rest with
        | some g => some g
        | none => dotPlus (c :: rest)
      else dotPlus (c :: rest) := rfl

theorem wakeSearch_cons (pw : Bool) (c : Char) (rest : List Char) :
    wakeSearch pw (c :: rest) =
      match (if pw = true then none else matchWakeAt (c :: rest)) with
      | some g => some g
      | none => wakeSearch (isWordChar c) rest := rfl

theorem isWakeSep_newline : isWakeSep '\n' = true := by decide

theorem dotPlus_cons (c : Char) (rest : List Char) (hc : c ≠ '\n') :
    dotPlus (c :: rest) = some (c :: rest.takeWhile (fun d => d != '\n')) := by
  rw [dotPlus, if_neg hc]

/-- After at least one separator, a separator run followed by a
non-separator character always lets the greedy tail match, with group(1)
starting at that character. -/
theorem afterSeps_some (seps : List Char) (hseps : ∀ x ∈ seps, isWakeSep x = true)
    (c : Char) (hc : isWakeSep c = false) (rest : List Char) :
    afterSeps (seps ++ c :: rest) = some (c :: rest.takeWhile (fun d => d != '\n')) := by
  have hcn : c ≠ '\n' := by
    intro h
    rw [h, isWakeSep_newline] at hc
    exact absurd hc (by simp)
  induction seps with
  | nil =>
    rw [List.nil_append, afterSeps_cons, hc]
    rw [if_neg Bool.false_ne_true]
    exact dotPlus_cons c rest hcn
  | cons x xs ih =>
    have hx : isWakeSep x = true := hseps x (List.mem_cons_self x xs)
    have ih' := ih (fun y hy => hseps y (List.mem_cons_of_mem x hy))
    rw [List.cons_append, afterSeps_cons, hx, if_pos rfl, ih']

/-- The anchored pattern match on a literal lowercase obs followed by a
separator reduces to the separator-and-tail match. -/
theorem matchWakeAt_obs (c0 : Char) (l : List Char) (hc0 : isWakeSep c0 = true) :
    matchWakeAt ('o' :: 'b' :: 's' :: c0 :: l) = afterSeps l := by
  show (if ('o'.toLower = 'o' && 'b'.toLower = 'b' && 's'.toLower = 's' && isWakeSep c0) = true
      then afterSeps l else none) = afterSeps l
  rw [hc0]
  rfl

/-- If the anchored pattern matches at the split point and the character
before the split is absent or not a word character, the search succeeds. -/
theorem wakeSearch_isSome (u v : List Char) :
    ∀ pw : Bool,
    ((u = [] ∧ pw = false) ∨ (∃ u0 x, u = u0 ++ [x] ∧ isWordChar x = false)) →
    (matchWakeAt v).isSome = true →
    (wakeSearch pw (u ++ v)).isSome = true := by
  induction u with
  | nil =>
    intro pw hb hm
    obtain ⟨g, hg⟩ := Option.isSome_iff_exists.mp hm
    have hpw : pw = false := by
      rcases hb with ⟨_, h⟩ | ⟨u0, x, hux, _⟩
      · exact h
      · exact absurd hux.symm (by simp)
    subst hpw
    rw [List.nil_append]
    cases v with
    | nil => rw [show matchWakeAt [] = none from rfl] at hg; cases hg
    | cons d rest =>
      rw [wakeSearch_cons, if_neg Bool.false_ne_true, hg]
      rfl
  | cons d ds ih =>
    intro pw hb hm
    rw [List.cons_append, wakeSearch_cons]
    cases hma : (if pw = true then none else matchWakeAt (d :: (ds ++ v))) with
    | some g => rfl
    | none =>
      apply ih (isWordChar d) ?_ hm
      rcases hb with ⟨habs, _⟩ | ⟨u0, x, hux, hx⟩
      · exact absurd habs (by simp)
      · cases u0 with
        | nil =>
          rw [List.nil_append] at hux
          have hd : d = x := (List.cons.injEq d ds x []).mp hux |>.1
          have hds : ds = [] := (List.cons.injEq d ds x []).mp hux |>.2
          exact Or.inl ⟨hds, by rw [hd, hx]⟩
        | cons e u0' =>
          rw [List.cons_append] at hux
          have hds : ds = u0' ++ [x] := (List.cons.injEq d ds e (u0' ++ [x])).mp hux |>.2
          exact Or.inr ⟨u0', x, hds, hx⟩

/-- The positive direction of the wake-word contract: obs at a word
boundary, one or more separators, then at least one non-separator
character, always produces a command. -/
theorem extract_isSome (t : String) (u seps rest : List Char) (c0 c : Char)
    (hdec : pyStrip t.toList = u ++ ('o' :: 'b' :: 's' :: c0 :: (seps ++ c :: rest)))
    (hbound : u = [] ∨ ∃ u0 x, u = u0 ++ [x] ∧ isWordChar x = false)
    (hc0 : isWakeSep c0 = true)
    (hseps : ∀ x ∈ seps, isWakeSep x = true)
    (hc : isWakeSep c = false) :
    (extract t).isSome = true := by
  have hm : (matchWakeAt ('o' :: 'b' :: 's' :: c0 :: (seps ++ c :: rest))).isSome = true := by
    rw [matchWakeAt_obs c0 _ hc0, afterSeps_some seps hseps c hc rest]
    rfl
  have hb' : ((u = [] ∧ false = false) ∨ (∃ u0 x, u = u0 ++ [x] ∧ isWordChar x = false)) := by
    rcases hbound with rfl | h
    · exact Or.inl ⟨rfl, rfl⟩
    · exact Or.inr h
  have hsearch := wakeSearch_isSome u _ false hb' hm
  obtain ⟨g, hg⟩ := Option.isSome_iff_exists.mp hsearch
  rw [extract, hdec, hg]
  rfl

/-- The separator-and-tail match succeeds exactly when the list splits as
a (possibly empty) run of further separators followed by a non-newline
character: the greedy separator run backtracks, so the character after the
chosen run may itself be a separator, as long as it is not a newline. -/
theorem afterSeps_isSome_iff (rem : List Char) :
    (afterSeps rem).isSome = true ↔
      ∃ seps c rest, rem = seps ++ c :: rest ∧
        (∀ x ∈ seps, isWakeSep x = true) ∧ c ≠ '\n' := by
  induction rem with
  | nil =>
    constructor
    · intro h
      exact Bool.noConfusion h
    · rintro ⟨seps, c, rest, habs, -, -⟩
      exact absurd habs (by simp)
  | cons d rem' ih =>
    have hdot : d ≠ '\n' → (dotPlus (d :: rem')).isSome = true := fun hne => by
      rw [dotPlus_cons d rem' hne]
      rfl
    have hdot' : (dotPlus (d :: rem')).isSome = true → d ≠ '\n' := by
      intro h he
      subst he
      rw [show dotPlus ('\n' :: rem') = none from by rw [dotPlus]; simp] at h
      exact Bool.noConfusion h
    rw [afterSeps_cons]
    cases hd : isWakeSep d with
    | false =>
      rw [if_neg Bool.false_ne_true]
      constructor
      · intro h
        exact ⟨[], d, rem', rfl, fun x hx => absurd hx (List.not_mem_nil x), hdot' h⟩
      · rintro ⟨seps, c, rest, heq, hseps, hcn⟩
        cases seps with
        | nil =>
          rw [List.nil_append, List.cons.injEq] at heq
          obtain ⟨rfl, rfl⟩ := heq
          exact hdot hcn
        | cons e seps' =>
          rw [List.cons_append, List.cons.injEq] at heq
          obtain ⟨rfl, -⟩ := heq
          rw [hseps d (List.mem_cons_self d seps')] at hd
          exact Bool.noConfusion hd
    | true =>
      rw [if_pos rfl]
      cases ha : afterSeps rem' with
      | some g =>
        constructor
        · intro _
          obtain ⟨seps, c, rest, heq, hseps, hcn⟩ := ih.mp (by rw [ha]; rfl)
          refine ⟨d :: seps, c, rest, by rw [List.cons_append, heq], ?_, hcn⟩
          intro x hx
          rcases List.mem_cons.mp hx with rfl | hx'
          · exact hd
          · exact hseps x hx'
        · intro _
          rfl
      | none =>
        constructor
        · intro h
          have h' : (dotPlus (d :: rem')).isSome = true := h
          exact ⟨[], d, rem', rfl, fun x hx => absurd hx (List.not_mem_nil x), hdot' h'⟩
        · rintro ⟨seps, c, rest, heq, hseps, hcn⟩
          cases seps with
          | nil =>
            rw [List.nil_append, List.cons.injEq] at heq
            obtain ⟨rfl, rfl⟩ := heq
            show (dotPlus (d :: rem')).isSome = true
            exact hdot hcn
          | cons e seps' =>
            rw [List.cons_append, List.cons.injEq] at heq
            obtain ⟨rfl, hrem⟩ := heq
            have hsome : (afterSeps rem').isSome = true :=
              ih.mpr ⟨seps', c, rest, hrem,
                fun y hy => hseps y (List.mem_cons_of_mem _ hy), hcn⟩
            rw [ha] at hsome
            exact Bool.noConfusion hsome

/-- The anchored pattern matches exactly on a case-insensitive obs, a
separator, and a matching tail. -/
theorem matchWakeAt_isSome_iff (v : List Char) :
    (matchWakeAt v).isSome = true ↔
      ∃ o b s c0 rem, v = o :: b :: s :: c0 :: rem ∧
        o.toLower = 'o' ∧ b.toLower = 'b' ∧ s.toLower = 's' ∧
        isWakeSep c0 = true ∧ (afterSeps rem).isSome = true := by
  match v with
  | [] =>
    refine ⟨fun h => Bool.noConfusion h, ?_⟩
    rintro ⟨o, b, s, c0, rem, habs, -⟩
    exact absurd habs (by simp)
  | [_] =>
    refine ⟨fun h => Bool.noConfusion h, ?_⟩
    rintro ⟨o, b, s, c0, rem, habs, -⟩
    exact absurd habs (by simp)
  | [_, _] =>
    refine ⟨fun h => Bool.noConfusion h, ?_⟩
    rintro ⟨o, b, s, c0, rem, habs, -⟩
    exact absurd habs (by simp)
  | [_, _, _] =>
    refine ⟨fun h => Bool.noConfusion h, ?_⟩
    rintro ⟨o, b, s, c0, rem, habs, -⟩
    exact absurd habs (by simp)
  | o :: b :: s :: c0 :: rem =>
    show (if (o.toLower = 'o' && b.toLower = 'b' && s.toLower = 's' && isWakeSep c0) = true
        then afterSeps rem else none).isSome = true ↔ _
    by_cases hcond :
        (o.toLower = 'o' && b.toLower = 'b' && s.toLower = 's' && isWakeSep c0) = true
    · rw [if_pos hcond]
      simp only [Bool.and_eq_true, decide_eq_true_eq] at hcond
      obtain ⟨⟨⟨ho, hb⟩, hs⟩, hc0⟩ := hcond
      constructor
      · intro h
        exact ⟨o, b, s, c0, rem, rfl, ho, hb, hs, hc0, h⟩
      · rintro ⟨o', b', s', c0', rem', heq, -, -, -, -, h⟩
        simp only [List.cons.injEq] at heq
        obtain ⟨rfl, rfl, rfl, rfl, rfl⟩ := heq
        exact h
    · rw [if_neg hcond]
      constructor
      · intro h
        exact Bool.noConfusion h
      · rintro ⟨o', b', s', c0', rem', heq, ho', hb', hs', hc0', -⟩
        simp only [List.cons.injEq] at heq
        obtain ⟨rfl, rfl, rfl, rfl, rfl⟩ := heq
        exact absurd (by rw [ho', hb', hs', hc0']; rfl) hcond

/-- The search succeeds exactly when the list splits at a word boundary
with the anchored pattern matching there. -/
theorem wakeSearch_isSome_iff (l : List Char) : ∀ pw : Bool,
    (wakeSearch pw l).isSome = true ↔
      ∃ u v, l = u ++ v ∧
        ((u = [] ∧ pw = false) ∨ ∃ u0 x, u = u0 ++ [x] ∧ isWordChar x = false) ∧
        (matchWakeAt v).isSome = true := by
  induction l with
  | nil =>
    intro pw
    constructor
    · intro h
      exact Bool.noConfusion h
    · rintro ⟨u, v, heq, -, hm⟩
      have hu : u = [] := by
        cases u with
        | nil => rfl
        | cons a l' => exact absurd heq (by simp)
      subst hu
      rw [List.nil_append] at heq
      subst heq
      exact Bool.noConfusion hm
  | cons d rest ih =>
    intro pw
    constructor
    · intro h
      rw [wakeSearch_cons] at h
      cases hma : (if pw = true then none else matchWakeAt (d :: rest)) with
      | some g =>
        have hpw : pw = false := by
          cases pw with
          | false => rfl
          | true =>
            rw [if_pos rfl] at hma
            exact Option.noConfusion hma
        subst hpw
        rw [if_neg Bool.false_ne_true] at hma
        exact ⟨[], d :: rest, rfl, Or.inl ⟨rfl, rfl⟩, by rw [hma]; rfl⟩
      | none =>
        rw [hma] at h
        have h' : (wakeSearch (isWordChar d) rest).isSome = true := h
        obtain ⟨u, v, heq, hb, hm⟩ := (ih (isWordChar d)).mp h'
        refine ⟨d :: u, v, by rw [List.cons_append, heq], ?_, hm⟩
        rcases hb with ⟨rfl, hw⟩ | ⟨u0, x, hux, hx⟩
        · exact Or.inr ⟨[], d, rfl, hw⟩
        · exact Or.inr ⟨d :: u0, x, by rw [hux, List.cons_append], hx⟩
    · rintro ⟨u, v, heq, hb, hm⟩
      rw [heq]
      exact wakeSearch_isSome u v pw hb hm

/-- The full characterization of the wake-word gate: a command is
extracted exactly when the stripped text contains a case-insensitive obs
at a word boundary, followed by at least one separator and then, after
zero or more further separators, a non-newline character. -/
theorem extract_isSome_iff (t : String) :
    (extract t).isSome = true ↔
      ∃ u o b s c0 seps c rest,
        pyStrip t.toList = u ++ o :: b :: s :: c0 :: (seps ++ c :: rest) ∧
        (u = [] ∨ ∃ u0 x, u = u0 ++ [x] ∧ isWordChar x = false) ∧
        o.toLower = 'o' ∧ b.toLower = 'b' ∧ s.toLower = 's' ∧
        isWakeSep c0 = true ∧ (∀ x ∈ seps, isWakeSep x = true) ∧ c ≠ '\n' := by
  have hsearch : (extract t).isSome = true ↔
      (wakeSearch false (pyStrip t.toList)).isSome = true := by
    rw [extract]
    cases hw : wakeSearch false (pyStrip t.toList) with
    | some g => exact ⟨fun _ => rfl, fun _ => rfl⟩
    | none => exact ⟨fun h => Bool.noConfusion h, fun h => Bool.noConfusion h⟩
  rw [hsearch, wakeSearch_isSome_iff (pyStrip t.toList) false]
  constructor
  · rintro ⟨u, v, heq, hb, hm⟩
    obtain ⟨o, b, s, c0, rem, rfl, ho, hbb, hss, hc0, ha⟩ :=
      (matchWakeAt_isSome_iff v).mp hm
    obtain ⟨seps, c, rest, rfl, hseps, hcn⟩ := (afterSeps_isSome_iff rem).mp ha
    refine ⟨u, o, b, s, c0, seps, c, rest, heq, ?_, ho, hbb, hss, hc0, hseps, hcn⟩
    rcases hb with ⟨hu, -⟩ | h
    · exact Or.inl hu
    · exact Or.inr h
  · rintro ⟨u, o, b, s, c0, seps, c, rest, heq, hb, ho, hbb, hss, hc0, hseps, hcn⟩
    refine ⟨u, o :: b :: s :: c0 :: (seps ++ c :: rest), heq, ?_, ?_⟩
    · rcases hb with rfl | h
      · exact Or.inl ⟨rfl, rfl⟩
      · exact Or.inr h
    · rw [matchWakeAt_isSome_iff]
      exact ⟨o, b, s, c0, seps ++ c :: rest, rfl, ho, hbb, hss, hc0,
        (afterSeps_isSome_iff _).mpr ⟨seps, c, rest, rfl, hseps, hcn⟩⟩

/-- C8, counterexample. The claim says a command is extracted exactly when
the text contains obs at a word boundary followed by one or more separator
characters. The text "obs," satisfies that condition (obs at the start,
followed by the separator comma), yet the gate extracts nothing, because
the pattern additionally requires at least one character after the
separators for (.+) to consume; accordingly nothing is propagated. -/
theorem c8_counterexample :
    pyStrip "obs,".toList = ['o', 'b', 's', ','] ∧
    isWakeSep ',' = true ∧
    extract "obs," = none ∧
    handleTranscription (.finished (.reply "ok")) "obs," = [] := by
  refine ⟨by decide, by decide, by decide, by decide⟩

/-- C8, amended. The gate extracts a command exactly when the stripped
text contains the token obs, case-insensitively and at a word boundary,
followed by at least one separator character and then, after zero or more
further separators, at least one non-newline character; that character may
itself be a separator, because the greedy separator run backtracks, so
extract("obs,,") yields ",", while text ending right after the separators
yields no command: extract("obs,") is None. The claim's examples hold
(extract("obs, hide webcam") = "hide webcam", extract("OBS show scene") =
"show scene", extract("hide webcam") = None), a non-matching utterance is
only logged (no protocol message), and a matching one is propagated as a
transcription message followed by the dispatch output. -/
theorem c8_amended (w : WaitResult) :
    extract "obs, hide webcam" = some "hide webcam" ∧
    extract "OBS show scene" = some "show scene" ∧
    extract "hide webcam" = none ∧
    extract "obs," = none ∧
    extract "obs,," = some "," ∧
    (∀ text w2, extract text = none → handleTranscription w2 text = []) ∧
    (∀ text cmd, extract text = some cmd →
      handleTranscription w text = Msg.transcription text :: handleAgentStream w) ∧
    (∀ t, (extract t).isSome = true ↔
      ∃ u o b s c0 seps c rest,
        pyStrip t.toList = u ++ o :: b :: s :: c0 :: (seps ++ c :: rest) ∧
        (u = [] ∨ ∃ u0 x, u = u0 ++ [x] ∧ isWordChar x = false) ∧
        o.toLower = 'o' ∧ b.toLower = 'b' ∧ s.toLower = 's' ∧
        isWakeSep c0 = true ∧ (∀ x ∈ seps, isWakeSep x = true) ∧ c ≠ '\n') := by
  refine ⟨by decide, by decide, by decide, by decide, by decide, ?_, ?_, extract_isSome_iff⟩
  · intro text w2 hn
    rw [handleTranscription, hn]
  · intro text cmd hs
    rw [handleTranscription, hs]

/-- C8, witness: the gate drops a wake-free utterance, propagates a waked
one, and the characterization applies in both directions at concrete
inputs: a match with material between the wake token and the command, and
a refutation on a wake-free text. -/
theorem c8_witness :
    handleTranscription (.finished (.reply "ok")) "hide webcam" = [] ∧
    handleTranscription (.finished (.reply "ok")) "obs, hide webcam" =
      Msg.transcription "obs, hide webcam" ::
        handleAgentStream (.finished (.reply "ok")) ∧
    (extract "xyz obs: do it").isSome = true := by
  have h := c8_amended (.finished (.reply "ok"))
  refine ⟨h.2.2.2.2.2.1 "hide webcam" _ (by decide),
          h.2.2.2.2.2.2.1 "obs, hide webcam" "hide webcam" (by decide),
          (h.2.2.2.2.2.2.2 "xyz obs: do it").mpr
            ⟨['x', 'y', 'z', ' '], 'o', 'b', 's', ':', [' '], 'd', ['o', ' ', 'i', 't'],
              by decide, Or.inr ⟨['x', 'y', 'z'], ' ', by decide, by decide⟩,
              rfl, rfl, rfl, by decide, by decide, by decide⟩⟩

end ObsAssistant
